import Mathlib

/-!
Shallow embedding of the service-day simulation engine of the
game-builder-demo repository (src/game/systems/service.py,
src/game/systems/chaos.py, src/game/systems/upgrades.py), together with
theorems settling the specification claims about it.

Numeric conventions: Python floats are modelled as exact rationals (`Rat`);
Python ints as `Int`/`Nat`.  Python's `int()` truncation toward zero is
modelled by `pyInt`.  `random.choice` is modelled by an explicit oracle
index reduced modulo the list length; `random.choice` on an empty list
raises `IndexError`, modelled as `none`.  Rational division in Lean is
total (`q / 0 = 0`) whereas Python raises `ZeroDivisionError` on a zero
denominator; theorems that depend on a quotient therefore carry a
nonzero-denominator hypothesis.
-/

namespace GameBuilder

/-- Modifier dictionaries `Dict[str, float]` passed to the update methods,
modelled as association lists. -/
abbrev Mods := List (String × Rat)

/-- `modifiers.get(key, default)`. -/
def mget (mods : Mods) (k : String) (d : Rat) : Rat :=
  match mods.find? (fun p => p.1 == k) with
  | some p => p.2
  | none => d

/-- Python `int()` applied to an exact rational: truncation toward zero. -/
def pyInt (q : Rat) : Int :=
  if 0 ≤ q then ⌊q⌋ else -⌊-q⌋

/-- Python `str.startswith`, at the character level. -/
def pyStartswith (s pre : String) : Bool :=
  pre.data.isPrefixOf s.data

/-- `Customer` dataclass (service.py). -/
structure Customer where
  name : String
  species : String
  quirk : Option String
  patience : Rat
  max_patience : Rat
  tip_range : List Int
  desired_recipe : Option String := none
  is_visible : Bool := true
  reveal_timer : Rat := 0
deriving DecidableEq, Repr

namespace Customer

/-- `Customer.update(dt, modifiers)`: patience decays by
`dt * modifiers.get('patience_decay', 1.0)`; an invisible-quirk customer
with a running reveal timer has the timer decremented and turns invisible
when it reaches zero. -/
def update (c : Customer) (dt : Rat) (mods : Mods) : Customer :=
  let pm := mget mods "patience_decay" 1
  let c1 := { c with patience := c.patience - dt * pm }
  if c1.quirk = some "invisible" ∧ c1.reveal_timer > 0 then
    let rt := c1.reveal_timer - dt
    if rt ≤ 0 then { c1 with reveal_timer := rt, is_visible := false }
    else { c1 with reveal_timer := rt }
  else c1

/-- `Customer.reveal(duration=2.0)`. -/
def reveal (c : Customer) (duration : Rat := 2) : Customer :=
  if c.quirk = some "invisible" then
    { c with is_visible := true, reveal_timer := duration }
  else c

/-- `Customer.calculate_tip(correct_drink, remaining_patience_ratio)`.
Python indexes `tip_range[0]` / `tip_range[1]`; all uses in the claims
supply a two-element list, so out-of-range indexing (an `IndexError` in
Python) is modelled with default 0. -/
def calculate_tip (c : Customer) (correct_drink : Bool)
    (remaining_patience_ratio : Rat) : Int :=
  if !correct_drink then 0
  else
    let base_tip := c.tip_range.getD 0 0
    let bonus := pyInt ((((c.tip_range.getD 1 0) - base_tip : Int) : Rat) *
      remaining_patience_ratio)
    base_tip + bonus

end Customer

/-- `Recipe` dataclass. -/
structure Recipe where
  id : String
  name : String
  steps : List String
  difficulty : Int
deriving DecidableEq, Repr

namespace Recipe

/-- `Recipe.matches(steps)`: exact ordered-sequence equality.  (`matches`
is a reserved word in Lean, hence the quoted identifier.) -/
def «matches» (r : Recipe) (steps : List String) : Bool :=
  steps == r.steps

end Recipe

/-- `RecipeBook`: the id→Recipe mapping after `load_recipes` (loading from
JSON is outside the core; ids are unique as Python dict keys). -/
structure RecipeBook where
  recipes : List Recipe
deriving DecidableEq, Repr

namespace RecipeBook

/-- `RecipeBook.find(recipe_id)`. -/
def find (b : RecipeBook) (recipe_id : String) : Option Recipe :=
  b.recipes.find? (fun r => r.id == recipe_id)

/-- The `regular_recipes` list built inside `get_random_recipe`: every
recipe whose id does not start with `'banishing'`. -/
def regular_recipes (b : RecipeBook) : List Recipe :=
  b.recipes.filter (fun r => !(pyStartswith r.id "banishing"))

/-- `RecipeBook.get_random_recipe()`, with `random.choice` given by the
oracle index `k` reduced modulo the candidate-list length; `none` models
the `IndexError` that `random.choice` raises on an empty list. -/
def get_random_recipe (b : RecipeBook) (k : Nat) : Option Recipe :=
  (regular_recipes b).get? (k % (regular_recipes b).length)

end RecipeBook

/-- `CustomerQueue`: fixed array of optional customers.  The constructor
establishes `customers.length = max_size`, and every operation preserves it
(proved in `claim9_queue_capacity`); the structural scans below are the
index loops `for i in range(self.max_size)` of the source under that
length invariant. -/
structure CustomerQueue where
  customers : List (Option Customer)
  max_size : Nat
deriving DecidableEq, Repr

namespace CustomerQueue

/-- `CustomerQueue.__init__(max_size=5)`. -/
def init (max_size : Nat := 5) : CustomerQueue :=
  ⟨List.replicate max_size none, max_size⟩

/-- The first-empty-slot scan of `add_customer`. -/
def addScan : List (Option Customer) → Customer → Bool × List (Option Customer)
  | [], _ => (false, [])
  | none :: rest, c => (true, some c :: rest)
  | some d :: rest, c =>
    let r := addScan rest c
    (r.1, some d :: r.2)

/-- `CustomerQueue.add_customer(customer)`: insert into the first empty
slot, scanning lowest index first; false if full. -/
def add_customer (q : CustomerQueue) (c : Customer) : Bool × CustomerQueue :=
  let r := addScan q.customers c
  (r.1, { q with customers := r.2 })

/-- `CustomerQueue.remove_customer(index)`: clear the slot and return the
prior occupant; `none` and no change when the index is out of range (the
Python guard `0 <= index < self.max_size`; indices are naturals here). -/
def remove_customer (q : CustomerQueue) (index : Nat) :
    Option Customer × CustomerQueue :=
  if index < q.max_size then
    ((q.customers.get? index).join,
     { q with customers := q.customers.set index none })
  else (none, q)

/-- `CustomerQueue.get_active_customers()`. -/
def get_active_customers (q : CustomerQueue) : List Customer :=
  q.customers.filterMap id

/-- The slot loop of `CustomerQueue.update`: age each occupant, evict
those with `patience ≤ 0` into the left list, in slot order. -/
def updateScan : List (Option Customer) → Rat → Mods →
    List Customer × List (Option Customer)
  | [], _, _ => ([], [])
  | none :: rest, dt, mods =>
    let r := updateScan rest dt mods
    (r.1, none :: r.2)
  | some c :: rest, dt, mods =>
    let c' := c.update dt mods
    let r := updateScan rest dt mods
    if c'.patience ≤ 0 then (c' :: r.1, none :: r.2)
    else (r.1, some c' :: r.2)

/-- `CustomerQueue.update(dt, modifiers)`: returns the list of customers
who left together with the new queue. -/
def update (q : CustomerQueue) (dt : Rat) (mods : Mods) :
    List Customer × CustomerQueue :=
  let r := updateScan q.customers dt mods
  (r.1, { q with customers := r.2 })

end CustomerQueue

/-- `BrewingStation` (service.py); `brew_time_per_step = 1.2 = 6/5`. -/
structure BrewingStation where
  current_recipe : List String := []
  available_ingredients : List String :=
    ["beans", "milk", "stardust", "meteor_shot", "moonlight", "sigil"]
  brew_time_per_step : Rat := 6/5
  current_brew_time : Rat := 0
  is_brewing : Bool := false
  selected_customer_index : Option Nat := none
deriving DecidableEq, Repr

namespace BrewingStation

/-- `BrewingStation.__init__()`. -/
def init : BrewingStation := {}

/-- `BrewingStation.start_order(customer_index)`. -/
def start_order (bs : BrewingStation) (customer_index : Nat) : BrewingStation :=
  { bs with selected_customer_index := some customer_index,
            current_recipe := [], is_brewing := true, current_brew_time := 0 }

/-- `BrewingStation.add_ingredient(ingredient)`. -/
def add_ingredient (bs : BrewingStation) (ingredient : String) :
    Bool × BrewingStation :=
  if ingredient ∈ bs.available_ingredients ∧ bs.current_recipe.length < 3 then
    (true, { bs with current_recipe := bs.current_recipe ++ [ingredient],
                     current_brew_time := 0 })
  else (false, bs)

/-- `BrewingStation.update(dt, modifiers)`: accumulate brew time while
brewing a non-empty sequence; return whether the accumulated time has
reached `brew_time_per_step`. -/
def update (bs : BrewingStation) (dt : Rat) (mods : Mods) :
    Bool × BrewingStation :=
  if bs.is_brewing = true ∧ bs.current_recipe ≠ [] then
    let brew_speed := mget mods "brew_speed" 1
    let bs' := { bs with
      current_brew_time := bs.current_brew_time + dt * brew_speed }
    (decide (bs'.brew_time_per_step ≤ bs'.current_brew_time), bs')
  else (false, bs)

/-- `BrewingStation.complete_order()`. -/
def complete_order (bs : BrewingStation) : List String × BrewingStation :=
  (bs.current_recipe,
   { bs with current_recipe := [], is_brewing := false,
             selected_customer_index := none })

/-- `BrewingStation.cancel_order()`. -/
def cancel_order (bs : BrewingStation) : BrewingStation :=
  { bs with current_recipe := [], is_brewing := false,
            selected_customer_index := none }

end BrewingStation

/-- A call against the `CustomerQueue` public interface. -/
inductive QOp where
  | add (c : Customer)
  | remove (index : Nat)
  | tick (dt : Rat) (mods : Mods)
deriving DecidableEq, Repr

/-- Execute one `CustomerQueue` call (state part). -/
def qstep (q : CustomerQueue) : QOp → CustomerQueue
  | .add c => (q.add_customer c).2
  | .remove i => (q.remove_customer i).2
  | .tick dt mods => (q.update dt mods).2

/-- Run a sequence of `CustomerQueue` calls. -/
def qrun (q : CustomerQueue) : List QOp → CustomerQueue
  | [] => q
  | op :: rest => qrun (qstep q op) rest

/-- A brewing station that has completed one step of one ingredient:
`start_order(0)` then `add_ingredient("beans")`. -/
def c3_station : BrewingStation :=
  ((BrewingStation.init.start_order 0).add_ingredient "beans").2

/-- A concrete customer used in witnesses and counterexamples. -/
def wCustomer : Customer :=
  { name := "Bea", species := "human", quirk := none,
    patience := 10, max_patience := 10, tip_range := [1, 3] }

/-- A concrete one-slot queue that is full. -/
def wFullQueue : CustomerQueue := ⟨[some wCustomer], 1⟩

/-- `PortalEvent` (chaos.py): the base-class `__init__` sets
`active/resolved/timer`, the subclass adds the rift fields. -/
structure PortalEvent where
  active : Bool := false
  resolved : Bool := false
  timer : Rat := 0
  rift_stability : Rat := 100
  drain_rate : Rat := 5
  pastries_lost : Nat := 0
  max_pastries_lost : Nat := 10
deriving DecidableEq, Repr

/-- The dictionary returned by `PortalEvent.update`. -/
inductive PortalUpdate where
  | empty
  | failed (pastries_lost : Nat) (message : String)
  | snapshot (rift_stability : Rat) (pastries_lost : Nat)
deriving DecidableEq, Repr

namespace PortalEvent

/-- `PortalEvent.start()`: note that `timer` is not reset here (it is 0 on
a freshly constructed event). -/
def start (e : PortalEvent) : PortalEvent :=
  { e with active := true, resolved := false,
           rift_stability := 100, pastries_lost := 0 }

/-- `PortalEvent.update(dt)`. -/
def update (e : PortalEvent) (dt : Rat) : PortalUpdate × PortalEvent :=
  if e.active = false ∨ e.resolved = true then (.empty, e)
  else
    let e1 := { e with
      rift_stability := max 0 (e.rift_stability - e.drain_rate * dt) }
    let e2 := { e1 with timer := e1.timer + dt }
    let e3 :=
      if 2 ≤ e2.timer then
        { e2 with timer := 0, pastries_lost := e2.pastries_lost + 1 }
      else e2
    if e3.rift_stability ≤ 0 ∨ e3.max_pastries_lost ≤ e3.pastries_lost then
      (.failed e3.pastries_lost "The portal consumed too many pastries!",
       { e3 with active := false })
    else (.snapshot e3.rift_stability e3.pastries_lost, e3)

/-- `PortalEvent.can_resolve(action, data)` for a list payload (the only
payload the game passes; non-list payloads fail the `isinstance` check). -/
def can_resolve (e : PortalEvent) (action : String) (data : List String) :
    Bool :=
  if action ≠ "serve_drink" then false
  else data == ["beans", "moonlight", "sigil"]

/-- `PortalEvent.resolve()`: returns the bonus `int(rift_stability / 10)`
and the resolved event. -/
def resolve (e : PortalEvent) : Int × PortalEvent :=
  (pyInt (e.rift_stability / 10), { e with resolved := true, active := false })

end PortalEvent

/-- One fixed 1/60 s tick of a `PortalEvent` (state part). -/
def portalTick (e : PortalEvent) : PortalEvent := (e.update (1/60)).2

/-- `n` fixed 1/60 s ticks of a `PortalEvent`. -/
def portalIter : Nat → PortalEvent → PortalEvent
  | 0, e => e
  | n+1, e => portalTick (portalIter n e)

/-- `ChaosManager` (chaos.py).  The only concrete `ChaosEvent` in the
program is `PortalEvent`, so `current_event` holds one. -/
structure ChaosManager where
  current_event : Option PortalEvent := none
  event_triggered : Bool := false
  trigger_time : Rat := 45
deriving DecidableEq, Repr

namespace ChaosManager

/-- `ChaosManager.__init__()`. -/
def init : ChaosManager := {}

/-- `ChaosManager.reset()`. -/
def reset (m : ChaosManager) : ChaosManager :=
  { m with current_event := none, event_triggered := false }

/-- `ChaosManager.check_trigger(time_remaining)`: instantiates and starts
a fresh `PortalEvent` on the first call at or below the threshold. -/
def check_trigger (m : ChaosManager) (time_remaining : Rat) :
    Bool × ChaosManager :=
  if m.event_triggered = false ∧ time_remaining ≤ m.trigger_time then
    (true, { m with event_triggered := true,
                    current_event := some (PortalEvent.start {}) })
  else (false, m)

end ChaosManager

/-- A day's sequence of `check_trigger` calls, collecting the results. -/
def runChecks (m : ChaosManager) : List Rat → List Bool × ChaosManager
  | [] => ([], m)
  | t :: rest =>
    let r := m.check_trigger t
    let rr := runChecks r.2 rest
    (r.1 :: rr.1, rr.2)

/-- A non-empty recipe book whose only recipe is banishing-tagged. -/
def c6_book : RecipeBook :=
  ⟨[{ id := "banishing_espresso", name := "Banishing Espresso",
      steps := ["beans", "moonlight", "sigil"], difficulty := 3 }]⟩

/-- A one-recipe book with an ordinary (non-banishing) recipe. -/
def latteRecipe : Recipe :=
  { id := "latte", name := "Latte", steps := ["beans", "milk"],
    difficulty := 1 }

/-- A book containing only `latteRecipe`. -/
def latteBook : RecipeBook := ⟨[latteRecipe]⟩

/-- `Upgrade` dataclass (upgrades.py); `cost` is a Python int. -/
structure Upgrade where
  id : String
  name : String
  description : String
  cost : Int
  effect_key : String
  effect_value : Rat
  icon : Option String := none
deriving DecidableEq, Repr

/-- `UpgradeManager` state: catalogue, purchased ids, and the modifier
dictionary, all modelled as association lists with unique keys. -/
structure UpgradeManager where
  available_upgrades : List (String × Upgrade)
  purchased_upgrades : List String
  modifiers : List (String × Rat)
deriving DecidableEq, Repr

namespace UpgradeManager

/-- The catalogue built by `_init_upgrades` (`1.2 = 6/5`, `0.85 = 17/20`). -/
def initCatalogue : List (String × Upgrade) :=
  [("enchanted_grinder",
    { id := "enchanted_grinder", name := "Enchanted Grinder",
      description := "Reduces brew time by 20%", cost := 15,
      effect_key := "brew_speed", effect_value := 6/5,
      icon := some "upgrade_grinder" }),
   ("calming_fern",
    { id := "calming_fern", name := "Calming Fern",
      description := "Slows patience decay by 15%", cost := 20,
      effect_key := "patience_decay", effect_value := 17/20,
      icon := some "upgrade_fern" })]

/-- `UpgradeManager.__init__()`. -/
def init : UpgradeManager :=
  { available_upgrades := initCatalogue,
    purchased_upgrades := [],
    modifiers := [("brew_speed", 1), ("patience_decay", 1),
                  ("tip_multiplier", 1)] }

/-- `self.available_upgrades.get(upgrade_id)`. -/
def findUpgrade (m : UpgradeManager) (upgrade_id : String) : Option Upgrade :=
  (m.available_upgrades.find? (fun p => p.1 == upgrade_id)).map (·.2)

/-- `UpgradeManager._apply_upgrade(upgrade)`: if the effect key is a known
modifier, multiply that modifier by the effect value (the Python
`patience_decay` branch and its `else` branch perform the identical
multiplication). -/
def apply_upgrade (m : UpgradeManager) (u : Upgrade) : UpgradeManager :=
  if (m.modifiers.find? (fun p => p.1 == u.effect_key)).isSome then
    let newMods := m.modifiers.map fun p =>
      if p.1 == u.effect_key then (p.1, p.2 * u.effect_value) else p
    { m with modifiers := newMods }
  else m

/-- `UpgradeManager.purchase(upgrade_id, coins)`. -/
def purchase (m : UpgradeManager) (upgrade_id : String) (coins : Int) :
    Option Int × UpgradeManager :=
  if upgrade_id ∈ m.purchased_upgrades then (none, m)
  else
    match m.findUpgrade upgrade_id with
    | none => (none, m)
    | some u =>
      if coins < u.cost then (none, m)
      else
        let m1 := { m with purchased_upgrades :=
                      m.purchased_upgrades ++ [upgrade_id] }
        (some (coins - u.cost), apply_upgrade m1 u)

end UpgradeManager

/-- A customer template (an entry of the already-parsed
`data/customers.json` pool; parsing is outside the core). -/
structure Template where
  name : String
  species : String
  quirk : Option String
  patience : Rat
  tip : List Int
deriving DecidableEq, Repr

/-- The events dictionary returned by `ServiceController.update`. -/
structure ServiceEvents where
  customers_left : List Customer
  day_ended : Bool
deriving DecidableEq, Repr

/-- The result dictionary returned by `ServiceController.serve_drink`. -/
structure ServeResult where
  success : Bool
  tip : Int
  message : String
deriving DecidableEq, Repr

/-- `ServiceController` state (service.py). -/
structure ServiceController where
  recipe_book : RecipeBook
  customer_queue : CustomerQueue
  brewing_station : BrewingStation
  customer_pool : List Template
  day_time : Rat := 90
  time_remaining : Rat := 90
  customers_served : Nat := 0
  total_tips : Int := 0
  spawn_timer : Rat := 0
  spawn_interval : Rat := 12
  cafe_heat : Rat := 0
  active : Bool := false
deriving DecidableEq, Repr

namespace ServiceController

/-- `ServiceController.__init__()`, given the loaded recipe book and
customer pool. -/
def init (book : RecipeBook) (pool : List Template) : ServiceController :=
  { recipe_book := book, customer_queue := CustomerQueue.init,
    brewing_station := BrewingStation.init, customer_pool := pool }

/-- The `Customer(...)` construction inside `spawn_customer`, from a
chosen template and the chosen recipe id; ghosts start invisible. -/
def mkCustomer (t : Template) (rid : String) : Customer :=
  let c : Customer :=
    { name := t.name, species := t.species, quirk := t.quirk,
      patience := t.patience, max_patience := t.patience,
      tip_range := t.tip, desired_recipe := some rid }
  if c.quirk = some "invisible" then { c with is_visible := false } else c

/-- `ServiceController.spawn_customer()`: `tIdx`/`rIdx` are the
`random.choice` oracles; the result is `none` when `get_random_recipe`
raises (no ordinary recipe).  The template lookup cannot miss because the
index is reduced modulo the pool length. -/
def spawn_customer (sc : ServiceController) (tIdx rIdx : Nat) :
    Option (Bool × ServiceController) :=
  if sc.customer_pool = [] ∨ sc.active = false then some (false, sc)
  else
    match sc.customer_pool.get? (tIdx % sc.customer_pool.length) with
    | none => some (false, sc)
    | some t =>
      match sc.recipe_book.get_random_recipe rIdx with
      | none => none
      | some r =>
        let res := sc.customer_queue.add_customer (mkCustomer t r.id)
        some (res.1, { sc with customer_queue := res.2 })

/-- `ServiceController.start_day(day)` (`day` is unused in the source):
reset the session, clear the queue, spawn the initial customer. -/
def start_day (sc : ServiceController) (day tIdx rIdx : Nat) :
    Option ServiceController :=
  let _ := day
  let sc1 := { sc with
    time_remaining := sc.day_time,
    customers_served := 0, total_tips := 0, spawn_timer := 2,
    cafe_heat := 0, active := true,
    customer_queue := { sc.customer_queue with
      customers := List.replicate sc.customer_queue.max_size none } }
  (sc1.spawn_customer tIdx rIdx).map (·.2)

/-- The time block of `ServiceController.update`: decrement
`time_remaining`, floor at 0 and deactivate at day end. -/
def timePhase (sc : ServiceController) (dt : Rat) : ServiceController :=
  let tr := sc.time_remaining - dt
  if tr ≤ 0 then { sc with time_remaining := 0, active := false }
  else { sc with time_remaining := tr }

/-- The spawn block of `ServiceController.update`: when the spawn timer
has run out and fewer than 8 customers have been seen, attempt a spawn
and on success reschedule it (`jitter` is the `random.uniform(-2, 2)`
draw). -/
def spawnPhase (sc : ServiceController) (tIdx rIdx : Nat) (jitter : Rat) :
    Option ServiceController :=
  if sc.spawn_timer ≤ 0 ∧
     sc.customers_served + sc.customer_queue.get_active_customers.length
       < 8 then
    (sc.spawn_customer tIdx rIdx).map fun p =>
      if p.1 then { p.2 with spawn_timer := p.2.spawn_interval + jitter }
      else p.2
  else some sc

/-- The cafe-heat block of `ServiceController.update`. -/
def heatPhase (sc : ServiceController) (dt : Rat) : ServiceController :=
  let hasFire := sc.customer_queue.customers.any fun o =>
    match o with
    | some c => c.species == "fire_elemental"
    | none => false
  if hasFire then { sc with cafe_heat := min 100 (sc.cafe_heat + dt * 10) }
  else { sc with cafe_heat := max 0 (sc.cafe_heat - dt * 5) }

/-- `ServiceController.update(dt, modifiers)`: the phases in source
order — no-op when inactive; time and day end; spawn timer and spawn;
customer aging/eviction; brewing; cafe heat. -/
def update (sc : ServiceController) (dt : Rat) (mods : Mods)
    (tIdx rIdx : Nat) (jitter : Rat) :
    Option (ServiceEvents × ServiceController) :=
  if sc.active = false then
    some ({ customers_left := [], day_ended := false }, sc)
  else
    let sc1 := timePhase sc dt
    let sc2 := { sc1 with spawn_timer := sc1.spawn_timer - dt }
    match spawnPhase sc2 tIdx rIdx jitter with
    | none => none
    | some sc3 =>
      let qres := sc3.customer_queue.update dt mods
      let sc4 := { sc3 with customer_queue := qres.2 }
      let bres := sc4.brewing_station.update dt mods
      let sc5 := { sc4 with brewing_station := bres.2 }
      let sc6 := heatPhase sc5 dt
      some ({ customers_left := qres.1,
              day_ended := decide (sc.time_remaining - dt ≤ 0) }, sc6)

/-- `ServiceController.serve_drink(recipe_steps)`.  `none` models the
`IndexError` of `customers[customer_index]` when the bound index is past
the array (unreachable while the queue keeps its fixed length).  As in
the source, the customer is removed and the stats updated regardless of
correctness; the division `patience / max_patience` is Lean's total
rational division (Python would raise on `max_patience == 0`). -/
def serve_drink (sc : ServiceController) (recipe_steps : List String) :
    Option (ServeResult × ServiceController) :=
  match sc.brewing_station.selected_customer_index with
  | none => some ({ success := false, tip := 0, message := "" }, sc)
  | some customer_index =>
    match sc.customer_queue.customers.get? customer_index with
    | none => none
    | some none => some ({ success := false, tip := 0, message := "" }, sc)
    | some (some customer) =>
      let desired_recipe :=
        match customer.desired_recipe with
        | none => none
        | some rid => sc.recipe_book.find rid
      let correct :=
        match desired_recipe with
        | some r => r.«matches» recipe_steps
        | none => false
      let patience_ratio := customer.patience / customer.max_patience
      let tip := customer.calculate_tip correct patience_ratio
      let sc1 := { sc with customers_served := sc.customers_served + 1,
                           total_tips := sc.total_tips + tip }
      let sc2 := { sc1 with customer_queue :=
                     (sc1.customer_queue.remove_customer customer_index).2 }
      let message :=
        if correct then
          customer.name ++ " loved their " ++
            (match desired_recipe with
             | some r => r.name
             | none => "") ++ "!"
        else customer.name ++ " didn't get what they ordered..."
      some ({ success := correct, tip := tip, message := message }, sc2)

/-- `ServiceController.ring_bell()`. -/
def ring_bell (sc : ServiceController) : ServiceController :=
  { sc with customer_queue := { sc.customer_queue with
      customers := sc.customer_queue.customers.map fun o =>
        match o with
        | some c =>
          if c.quirk = some "invisible" then some (c.reveal 2) else some c
        | none => none } }

end ServiceController

/-- A call against the service public interface (`start_order` is the
slot binding the UI performs on the brewing station before serving). -/
inductive SOp where
  | startDay (day tIdx rIdx : Nat)
  | updateT (dt : Rat) (mods : Mods) (tIdx rIdx : Nat) (jitter : Rat)
  | spawn (tIdx rIdx : Nat)
  | serve (steps : List String)
  | startOrder (i : Nat)
  | ringBell
deriving DecidableEq, Repr

/-- Execute one service call (state part); `none` models a Python
exception. -/
def sstep (sc : ServiceController) : SOp → Option ServiceController
  | .startDay d tIdx rIdx => sc.start_day d tIdx rIdx
  | .updateT dt mods tIdx rIdx j =>
    (sc.update dt mods tIdx rIdx j).map (·.2)
  | .spawn tIdx rIdx => (sc.spawn_customer tIdx rIdx).map (·.2)
  | .serve steps => (sc.serve_drink steps).map (·.2)
  | .startOrder i =>
    some { sc with brewing_station := sc.brewing_station.start_order i }
  | .ringBell => some sc.ring_bell

/-- Run a sequence of service calls. -/
def srun (sc : ServiceController) : List SOp → Option ServiceController
  | [] => some sc
  | op :: rest =>
    match sstep sc op with
    | none => none
    | some sc' => srun sc' rest

/-- The patience bounds of claim C2, for one customer. -/
def goodCustomer (c : Customer) : Prop :=
  0 ≤ c.patience ∧ c.patience ≤ c.max_patience

/-- Every occupant of the queue satisfies the patience bounds. -/
def queueInv (q : CustomerQueue) : Prop :=
  ∀ o ∈ q.customers, ∀ c, o = some c → goodCustomer c

/-- Every template of the pool has nonnegative patience. -/
def poolInv (pool : List Template) : Prop :=
  ∀ t ∈ pool, 0 ≤ t.patience

/-- The controller invariant for claim C2. -/
def scInv (sc : ServiceController) : Prop :=
  poolInv sc.customer_pool ∧ queueInv sc.customer_queue

/-- The update calls of a trace have nonnegative `dt` and a nonnegative
patience-decay modifier. -/
def goodOp : SOp → Prop
  | .updateT dt mods _ _ _ => 0 ≤ dt ∧ 0 ≤ mget mods "patience_decay" 1
  | _ => True

/-- A concrete customer template with 10 s of patience. -/
def beaTemplate : Template :=
  { name := "Bea", species := "human", quirk := none, patience := 10,
    tip := [1, 3] }

/-- The customer spawned from `beaTemplate` ordering the latte. -/
def beaCustomer : Customer :=
  { name := "Bea", species := "human", quirk := none, patience := 10,
    max_patience := 10, tip_range := [1, 3], desired_recipe := some "latte" }

/-- A fresh controller over the latte book and the one-template pool. -/
def c2sc0 : ServiceController :=
  ServiceController.init latteBook [beaTemplate]

/-- The controller state right after `start_day(1)` on `c2sc0`. -/
def c2sc1 : ServiceController :=
  { recipe_book := latteBook, customer_pool := [beaTemplate],
    brewing_station := BrewingStation.init,
    customer_queue := ⟨[some beaCustomer, none, none, none, none], 5⟩,
    time_remaining := 90, spawn_timer := 2, active := true }

/-- A customer with an inverted tip range (`tip_range[0] > tip_range[1]`)
ordering the latte at full patience. -/
def mozCustomer : Customer :=
  { name := "Moz", species := "human", quirk := none, patience := 5,
    max_patience := 5, tip_range := [5, 0], desired_recipe := some "latte" }

/-- A controller whose station is bound to slot 0, occupied by
`mozCustomer`. -/
def c1sc : ServiceController :=
  { recipe_book := latteBook, customer_pool := [],
    brewing_station := BrewingStation.init.start_order 0,
    customer_queue := ⟨[some mozCustomer, none, none, none, none], 5⟩ }

/-- A well-formed customer (tips 1–3) ordering the latte at full
patience. -/
def liaCustomer : Customer :=
  { name := "Lia", species := "human", quirk := none, patience := 5,
    max_patience := 5, tip_range := [1, 3], desired_recipe := some "latte" }

/-- A controller whose station is bound to slot 0, occupied by
`liaCustomer`. -/
def c10sc : ServiceController :=
  { recipe_book := latteBook, customer_pool := [],
    brewing_station := BrewingStation.init.start_order 0,
    customer_queue := ⟨[some liaCustomer, none, none, none, none], 5⟩ }

/-- The state after a correct serve on `c10sc`: slot cleared, stats
updated, station untouched (still bound to the now-empty slot 0). -/
def c10after : ServiceController :=
  { recipe_book := latteBook, customer_pool := [],
    brewing_station := BrewingStation.init.start_order 0,
    customer_queue := ⟨[none, none, none, none, none], 5⟩,
    customers_served := 1, total_tips := 3 }

end GameBuilder

namespace GameBuilder

/-- The claim C8 tip calculation facts, stated for any customer with a
two-element `tip_range`. -/
theorem claim8_calculate_tip (c : Customer) (t0 t1 : Int)
    (h : c.tip_range = [t0, t1]) (hle : t0 ≤ t1) :
    c.calculate_tip true 1 = t1 ∧ c.calculate_tip true 0 = t0 ∧
      ∀ r : Rat, c.calculate_tip false r = 0 := by
  refine ⟨?_, ?_, fun r => rfl⟩
  · simp only [Customer.calculate_tip, h, pyInt]
    norm_num
  · simp only [Customer.calculate_tip, h, pyInt]
    norm_num

/-- Witness for C8 at a concrete customer. -/
theorem claim8_witness :
    (Customer.mk "A" "human" none 5 5 [2, 7] none true 0).calculate_tip
      true 1 = 7 := by
  have h := claim8_calculate_tip
    (Customer.mk "A" "human" none 5 5 [2, 7] none true 0) 2 7 rfl (by decide)
  exact h.1

/-- C3 counterexample: after one ingredient and a 1.2 s tick, `update`
returns true, and the very next `update` (dt = 0.1, no intervening calls)
returns true again — two calls of the same run return true, refuting "at
most one call returns true". -/
theorem claim3_counterexample :
    (c3_station.update (6/5) []).1 = true ∧
    ((c3_station.update (6/5) []).2.update (1/10) []).1 = true := by
  constructor <;>
    norm_num [c3_station, BrewingStation.init, BrewingStation.start_order,
      BrewingStation.add_ingredient, BrewingStation.update, mget, List.find?]

/-- C3 amended: `BrewingStation.update` is level-triggered, not
edge-triggered: it returns true on every tick on which the station is
brewing a non-empty sequence and the accumulated time has reached the
per-step threshold; in particular once a call returns true, every
subsequent call with `dt ≥ 0` and nonnegative `brew_speed` (and no
intervening `add_ingredient`/`start_order`/`complete_order`/`cancel_order`)
also returns true. -/
theorem claim3_amended (bs : BrewingStation) (dt dt' : Rat)
    (mods mods' : Mods) (h : (bs.update dt mods).1 = true)
    (hdt : 0 ≤ dt') (hsp : 0 ≤ mget mods' "brew_speed" 1) :
    ((bs.update dt mods).2.update dt' mods').1 = true := by
  unfold BrewingStation.update at h ⊢
  by_cases hc : bs.is_brewing = true ∧ bs.current_recipe ≠ []
  · rw [if_pos hc] at h ⊢
    simp only [decide_eq_true_eq] at h
    dsimp only
    rw [if_pos hc]
    simp only [decide_eq_true_eq]
    have hmul : 0 ≤ dt' * mget mods' "brew_speed" 1 := mul_nonneg hdt hsp
    linarith
  · rw [if_neg hc] at h
    simp at h

/-- Witness for the C3 amended theorem at the concrete station. -/
theorem claim3_witness :
    ((c3_station.update (6/5) []).2.update (1/10) []).1 = true :=
  claim3_amended c3_station (6/5) (1/10) [] []
    (by norm_num [c3_station, BrewingStation.init, BrewingStation.start_order,
      BrewingStation.add_ingredient, BrewingStation.update, mget, List.find?])
    (by norm_num) (by norm_num [mget, List.find?])

theorem addScan_length (l : List (Option Customer)) (c : Customer) :
    (CustomerQueue.addScan l c).2.length = l.length := by
  induction l with
  | nil => rfl
  | cons o rest ih =>
    cases o <;> simp [CustomerQueue.addScan, ih]

theorem updateScan_length (l : List (Option Customer)) (dt : Rat)
    (mods : Mods) :
    (CustomerQueue.updateScan l dt mods).2.length = l.length := by
  induction l with
  | nil => rfl
  | cons o rest ih =>
    cases o with
    | none => simp [CustomerQueue.updateScan, ih]
    | some c =>
      simp only [CustomerQueue.updateScan]
      split <;> simp [ih]

theorem addScan_full (l : List (Option Customer)) (c : Customer)
    (h : ∀ o ∈ l, o.isSome = true) :
    CustomerQueue.addScan l c = (false, l) := by
  induction l with
  | nil => rfl
  | cons o rest ih =>
    cases o with
    | none =>
      have := h none (by simp)
      simp at this
    | some d =>
      have hrest : ∀ o ∈ rest, o.isSome = true := fun o ho => h o (by simp [ho])
      simp [CustomerQueue.addScan, ih hrest]

theorem qstep_length (q : CustomerQueue) (op : QOp) :
    (qstep q op).customers.length = q.customers.length := by
  cases op with
  | add c => simpa [qstep, CustomerQueue.add_customer] using addScan_length q.customers c
  | remove i =>
    simp only [qstep, CustomerQueue.remove_customer]
    split <;> simp
  | tick dt mods =>
    simpa [qstep, CustomerQueue.update] using updateScan_length q.customers dt mods

theorem qrun_length (ops : List QOp) (q : CustomerQueue) :
    (qrun q ops).customers.length = q.customers.length := by
  induction ops generalizing q with
  | nil => rfl
  | cons op rest ih => rw [qrun, ih, qstep_length]

theorem filterMap_id_length_le (l : List (Option Customer)) :
    (l.filterMap id).length ≤ l.length := by
  induction l with
  | nil => simp
  | cons o rest ih =>
    cases o <;> simp [List.filterMap_cons] <;> omega

/-- C9: a queue of capacity `n` never holds more than `n` customers under
any sequence of `add_customer`/`remove_customer`/`update` calls, and
`add_customer` on a full queue returns false and leaves every slot
unchanged. -/
theorem claim9_queue_capacity (n : Nat) (ops : List QOp) (c : Customer)
    (q : CustomerQueue) (hq : ∀ o ∈ q.customers, o.isSome = true) :
    ((qrun (CustomerQueue.init n) ops).customers.length = n ∧
      (qrun (CustomerQueue.init n) ops).get_active_customers.length ≤ n) ∧
    q.add_customer c = (false, q) := by
  refine ⟨⟨?_, ?_⟩, ?_⟩
  · rw [qrun_length]; simp [CustomerQueue.init]
  · calc (qrun (CustomerQueue.init n) ops).get_active_customers.length
        ≤ (qrun (CustomerQueue.init n) ops).customers.length :=
          filterMap_id_length_le _
      _ = n := by rw [qrun_length]; simp [CustomerQueue.init]
  · simp [CustomerQueue.add_customer, addScan_full q.customers c hq]

theorem portal_state (n : Nat) (hn : n ≤ 1199) :
    portalIter n (PortalEvent.start {}) =
      { active := true, resolved := false,
        timer := ((n % 120 : Nat) : Rat) / 60,
        rift_stability := 100 - (n : Rat) / 12,
        pastries_lost := n / 120 } := by
  induction n with
  | zero =>
    simp [portalIter, PortalEvent.start, PortalEvent.mk.injEq]
  | succ n ih =>
    have hn' : n ≤ 1198 := by omega
    rw [portalIter, ih (by omega)]
    unfold portalTick PortalEvent.update
    rw [if_neg (by simp)]
    have hcast : (n : Rat) ≤ 1198 := by exact_mod_cast hn'
    have hstab : max 0 ((100 - (n : Rat) / 12) - 5 * (1/60)) =
        100 - ((n + 1 : Nat) : Rat) / 12 := by
      rw [max_eq_right]
      · push_cast; ring
      · push_cast; linarith
    have hmod : n % 120 < 120 := Nat.mod_lt _ (by omega)
    have htiff : ((2:Rat) ≤ ((n % 120 : Nat) : Rat) / 60 + 1/60) ↔
        n % 120 = 119 := by
      rw [div_add_div_same, le_div_iff₀ (by norm_num)]
      constructor
      · intro h
        have : (119 : Rat) ≤ ((n % 120 : Nat) : Rat) := by linarith
        have : (119 : Nat) ≤ n % 120 := by exact_mod_cast this
        omega
      · intro h
        rw [h]; norm_num
    by_cases ht : (2:Rat) ≤ ((n % 120 : Nat) : Rat) / 60 + 1/60
    · have hc : n % 120 = 119 := htiff.mp ht
      have hple : n / 120 + 1 ≤ 9 := by omega
      dsimp only
      simp only [ht, if_true, hstab]
      have hfail : ¬ ((100 - ((n + 1 : Nat) : Rat) / 12 ≤ 0) ∨
          (10 ≤ n / 120 + 1)) := by
        push_neg
        constructor
        · push_cast; linarith
        · omega
      simp only [hfail, if_false]
      simp only [PortalEvent.mk.injEq]
      refine ⟨trivial, trivial, ?_, trivial, trivial, ?_, trivial⟩
      · have : (n + 1) % 120 = 0 := by omega
        rw [this]; norm_num
      · omega
    · have hc : n % 120 ≠ 119 := fun h => ht (htiff.mpr h)
      dsimp only
      simp only [ht, if_false, hstab]
      have hfail : ¬ ((100 - ((n + 1 : Nat) : Rat) / 12 ≤ 0) ∨
          (10 ≤ n / 120)) := by
        push_neg
        constructor
        · push_cast; linarith
        · omega
      simp only [hfail, if_false]
      simp only [PortalEvent.mk.injEq]
      refine ⟨trivial, trivial, ?_, trivial, trivial, ?_, trivial⟩
      · have : (n + 1) % 120 = n % 120 + 1 := by omega
        rw [this, div_add_div_same]
        push_cast
        ring
      · omega

/-- C4: a started `PortalEvent`, updated with fixed 1/60 s ticks and no
resolution attempt, first fails on the 1200th tick (20 simulated
seconds): the failing call returns the `portal_failed` payload, the final
state has `active = false`, `pastries_lost = 10` (the cap, incremented
`floor(20/2) = 10` times) and `rift_stability = 0`, and on every earlier
tick the event is still active with fewer than 10 pastries lost and
positive stability (so the loss cap is reached at, not after, the tick on
which stability reaches 0). -/
theorem claim4_portal_failure :
    ((portalIter 1200 (PortalEvent.start {})).active = false ∧
     (portalIter 1200 (PortalEvent.start {})).pastries_lost = 10 ∧
     (portalIter 1200 (PortalEvent.start {})).rift_stability = 0) ∧
    ((portalIter 1199 (PortalEvent.start {})).update (1/60)).1 =
      PortalUpdate.failed 10 "The portal consumed too many pastries!" ∧
    (∀ n, n ≤ 1199 → (portalIter n (PortalEvent.start {})).active = true ∧
      (portalIter n (PortalEvent.start {})).pastries_lost < 10 ∧
      0 < (portalIter n (PortalEvent.start {})).rift_stability) := by
  have hstep : portalIter 1200 (PortalEvent.start {}) =
      ((portalIter 1199 (PortalEvent.start {})).update (1/60)).2 := rfl
  have hupd : (portalIter 1199 (PortalEvent.start {})).update (1/60) =
      (PortalUpdate.failed 10 "The portal consumed too many pastries!",
       { active := false, resolved := false, timer := 0,
         rift_stability := 0, pastries_lost := 10 }) := by
    rw [portal_state 1199 (by norm_num)]
    unfold PortalEvent.update
    rw [if_neg (by simp)]
    dsimp only
    have hX : 100 - ((1199 : Nat) : Rat) / 12 - 5 * (1/60) = 0 := by norm_num
    rw [hX, max_self]
    have ht : (2:Rat) ≤ ((1199 % 120 : Nat) : Rat) / 60 + 1/60 := by norm_num
    simp only [ht, if_true]
    have hf : (0:Rat) ≤ 0 ∨ 10 ≤ 1199 / 120 + 1 := Or.inr (by norm_num)
    rw [if_pos hf]
  refine ⟨?_, ?_, ?_⟩
  · rw [hstep, hupd]
    exact ⟨rfl, rfl, rfl⟩
  · rw [hupd]
  · intro n hn
    rw [portal_state n hn]
    refine ⟨rfl, ?_, ?_⟩
    · show n / 120 < 10
      omega
    · have hcast : (n : Rat) ≤ 1199 := by exact_mod_cast hn
      show (0:Rat) < 100 - (n : Rat) / 12
      linarith

/-- Witness for C4: the event is still active after 20 ticks. -/
theorem claim4_witness :
    (portalIter 20 (PortalEvent.start {})).active = true :=
  (claim4_portal_failure.2.2 20 (by norm_num)).1

theorem check_trigger_triggered (m : ChaosManager) (t : Rat)
    (h : m.event_triggered = true) : m.check_trigger t = (false, m) := by
  unfold ChaosManager.check_trigger
  rw [if_neg]
  intro hc
  rw [h] at hc
  exact absurd hc.1 (by simp)

theorem runChecks_triggered (ts : List Rat) (m : ChaosManager)
    (h : m.event_triggered = true) :
    runChecks m ts = (List.replicate ts.length false, m) := by
  induction ts with
  | nil => rfl
  | cons t rest ih =>
    simp [runChecks, check_trigger_triggered m t h, ih, List.replicate]

theorem count_true_replicate_false (n : Nat) :
    List.count true (List.replicate n false) = 0 := by
  induction n with
  | zero => rfl
  | succ k ih => simp [List.replicate, List.count_cons, ih]

theorem runChecks_untriggered (ts : List Rat) (m : ChaosManager)
    (h : m.event_triggered = false) :
    ((runChecks m ts).1.count true ≤ 1) ∧
    (∀ i (hi : i < (runChecks m ts).1.length) (hi' : i < ts.length),
      ((runChecks m ts).1.get ⟨i, hi⟩ = true ↔
        (ts.get ⟨i, hi'⟩ ≤ m.trigger_time ∧
         ∀ j (hj : j < ts.length), j < i →
           ¬ ts.get ⟨j, hj⟩ ≤ m.trigger_time))) := by
  induction ts generalizing m with
  | nil =>
    refine ⟨by simp [runChecks], ?_⟩
    intro i hi hi'
    simp at hi'
  | cons t rest ih =>
    by_cases hto : t ≤ m.trigger_time
    · have hct : m.check_trigger t =
          (true, { m with event_triggered := true,
                          current_event := some (PortalEvent.start {}) }) := by
        unfold ChaosManager.check_trigger
        rw [if_pos ⟨h, hto⟩]
      have hrun : runChecks m (t :: rest) =
          (true :: List.replicate rest.length false,
           { m with event_triggered := true,
                    current_event := some (PortalEvent.start {}) }) := by
        have h2 := runChecks_triggered rest
          { m with event_triggered := true,
                   current_event := some (PortalEvent.start {}) } rfl
        simp [runChecks, hct, h2]
      rw [hrun]
      constructor
      · simp [count_true_replicate_false]
      · intro i hi hi'
        cases i with
        | zero =>
          constructor
          · intro _
            exact ⟨hto, fun j hj hj0 => absurd hj0 (by omega)⟩
          · intro _
            rfl
        | succ k =>
          have hgetF : (true :: List.replicate rest.length false).get
              ⟨k + 1, hi⟩ = false := by
            simp [List.get_replicate]
          rw [hgetF]
          constructor
          · intro hfalse
            exact Bool.noConfusion hfalse
          · intro hcontra
            exact absurd hto (hcontra.2 0 (by simp) (by omega))
    · have hct : m.check_trigger t = (false, m) := by
        unfold ChaosManager.check_trigger
        rw [if_neg]
        intro hc
        exact hto hc.2
      have hrun : runChecks m (t :: rest) =
          (false :: (runChecks m rest).1, (runChecks m rest).2) := by
        simp [runChecks, hct]
      rw [hrun]
      obtain ⟨ihc, ihg⟩ := ih m h
      constructor
      · simpa [List.count_cons] using ihc
      · intro i hi hi'
        cases i with
        | zero =>
          constructor
          · intro hfalse
            exact Bool.noConfusion hfalse
          · intro hcontra
            exact absurd hcontra.1 hto
        | succ k =>
          have hk' : k < rest.length := by simpa using hi'
          have hkl : k < (runChecks m rest).1.length := by simpa using hi
          have hgs : (false :: (runChecks m rest).1).get ⟨k + 1, hi⟩ =
              (runChecks m rest).1.get ⟨k, hkl⟩ := rfl
          rw [hgs, ihg k hkl hk']
          constructor
          · rintro ⟨h1, h2⟩
            refine ⟨h1, ?_⟩
            intro j hj hji
            cases j with
            | zero => exact fun hc => hto hc
            | succ j' =>
              have hj'r : j' < rest.length := by simpa using hj
              exact h2 j' hj'r (by omega)
          · rintro ⟨h1, h2⟩
            refine ⟨h1, ?_⟩
            intro j hj hji
            exact h2 (j + 1) (by simpa using hj) (by omega)

/-- C7: after a `reset` (with the fixed 45 s threshold), `check_trigger`
returns true at most once per day, exactly on the first call whose
argument is ≤ 45; the triggering call installs a freshly started
`PortalEvent` and sets the triggered flag, and any call on a manager whose
flag is already set returns false with the state unchanged. -/
theorem claim7_trigger_once (m0 : ChaosManager) (ts : List Rat)
    (htt : m0.trigger_time = 45) :
    (((runChecks m0.reset ts).1.count true ≤ 1) ∧
     (∀ i (hi : i < (runChecks m0.reset ts).1.length) (hi' : i < ts.length),
       ((runChecks m0.reset ts).1.get ⟨i, hi⟩ = true ↔
         (ts.get ⟨i, hi'⟩ ≤ 45 ∧
          ∀ j (hj : j < ts.length), j < i → ¬ ts.get ⟨j, hj⟩ ≤ 45)))) ∧
    (∀ (m : ChaosManager) (t : Rat), m.event_triggered = true →
       m.check_trigger t = (false, m)) ∧
    (∀ (m : ChaosManager) (t : Rat), (m.check_trigger t).1 = true →
       (m.check_trigger t).2 = { m with event_triggered := true,
                                        current_event :=
                                          some (PortalEvent.start {}) }) := by
  refine ⟨?_, check_trigger_triggered, ?_⟩
  · have h := runChecks_untriggered ts m0.reset rfl
    have htt' : (m0.reset).trigger_time = 45 := htt
    rw [htt'] at h
    exact h
  · intro m t h1
    by_cases hc : m.event_triggered = false ∧ t ≤ m.trigger_time
    · unfold ChaosManager.check_trigger
      rw [if_pos hc]
    · unfold ChaosManager.check_trigger at h1
      rw [if_neg hc] at h1
      exact absurd h1 (by simp)

/-- Witness for C7 on a concrete day: calls at 50, 40, 30 s remaining. -/
theorem claim7_witness :
    (runChecks (ChaosManager.init.reset) [50, 40, 30]).1.count true ≤ 1 :=
  (claim7_trigger_once ChaosManager.init [50, 40, 30] rfl).1.1

/-- Witness for C9: a two-slot run and a concrete full queue. -/
theorem claim9_witness :
    (qrun (CustomerQueue.init 2)
        [QOp.add wCustomer, QOp.tick 1 []]).customers.length = 2 ∧
    wFullQueue.add_customer wCustomer = (false, wFullQueue) := by
  have h := claim9_queue_capacity 2 [QOp.add wCustomer, QOp.tick 1 []]
    wCustomer wFullQueue (by decide)
  exact ⟨h.1.1, h.2⟩

theorem apply_upgrade_purchased (m : UpgradeManager) (u : Upgrade) :
    (m.apply_upgrade u).purchased_upgrades = m.purchased_upgrades := by
  unfold UpgradeManager.apply_upgrade
  split <;> rfl

/-- C5: `purchase(id, coins)` returns nothing exactly when the id is
already purchased, unknown, or unaffordable; a failed purchase leaves the
whole manager (purchased set and modifiers) unchanged; a successful
purchase returns `coins - cost`; and after a success, re-purchasing the
same id returns nothing and changes nothing. -/
theorem claim5_purchase (m : UpgradeManager) (uid : String) (coins : Int) :
    ((m.purchase uid coins).1 = none ↔
      (uid ∈ m.purchased_upgrades ∨ m.findUpgrade uid = none ∨
       ∃ u, m.findUpgrade uid = some u ∧ coins < u.cost)) ∧
    ((m.purchase uid coins).1 = none → (m.purchase uid coins).2 = m) ∧
    (∀ u, m.findUpgrade uid = some u → uid ∉ m.purchased_upgrades →
      ¬ coins < u.cost → (m.purchase uid coins).1 = some (coins - u.cost)) ∧
    (∀ r, (m.purchase uid coins).1 = some r → ∀ coins' : Int,
      ((m.purchase uid coins).2.purchase uid coins') =
        (none, (m.purchase uid coins).2)) := by
  by_cases h1 : uid ∈ m.purchased_upgrades
  · have hp : m.purchase uid coins = (none, m) := by
      unfold UpgradeManager.purchase
      rw [if_pos h1]
    refine ⟨?_, ?_, ?_, ?_⟩
    · rw [hp]
      simp [h1]
    · intro _
      rw [hp]
    · intro u _ h1' _
      exact absurd h1 h1'
    · intro r hr
      rw [hp] at hr
      exact absurd hr (by simp)
  · cases h2 : m.findUpgrade uid with
    | none =>
      have hp : m.purchase uid coins = (none, m) := by
        unfold UpgradeManager.purchase
        rw [if_neg h1, h2]
      refine ⟨?_, ?_, ?_, ?_⟩
      · rw [hp]
        simp [h2]
      · intro _
        rw [hp]
      · intro u hu
        exact absurd hu (by simp)
      · intro r hr
        rw [hp] at hr
        exact absurd hr (by simp)
    | some u =>
      by_cases h3 : coins < u.cost
      · have hp : m.purchase uid coins = (none, m) := by
          unfold UpgradeManager.purchase
          rw [if_neg h1, h2]
          dsimp only
          rw [if_pos h3]
        refine ⟨?_, ?_, ?_, ?_⟩
        · rw [hp]
          exact ⟨fun _ => Or.inr (Or.inr ⟨u, rfl, h3⟩), fun _ => rfl⟩
        · intro _
          rw [hp]
        · intro u' hu' _ hcost
          injection hu' with h
          rw [← h] at hcost
          exact absurd h3 hcost
        · intro r hr
          rw [hp] at hr
          exact absurd hr (by simp)
      · have hp : m.purchase uid coins =
            (some (coins - u.cost),
             UpgradeManager.apply_upgrade
               { m with purchased_upgrades :=
                   m.purchased_upgrades ++ [uid] } u) := by
          unfold UpgradeManager.purchase
          rw [if_neg h1, h2]
          dsimp only
          rw [if_neg h3]
        refine ⟨?_, ?_, ?_, ?_⟩
        · rw [hp]
          constructor
          · intro hn
            exact absurd hn (by simp)
          · rintro (hmem | hnone | ⟨u', hu', hcost⟩)
            · exact absurd hmem h1
            · exact absurd hnone (by simp)
            · injection hu' with h
              rw [← h] at hcost
              exact absurd hcost h3
        · intro hn
          rw [hp] at hn
          exact absurd hn (by simp)
        · intro u' hu' _ _
          injection hu' with h
          rw [hp, h]
        · intro r hr coins'
          rw [hp]
          have hmem : uid ∈ (UpgradeManager.apply_upgrade
              { m with purchased_upgrades :=
                  m.purchased_upgrades ++ [uid] } u).purchased_upgrades := by
            rw [apply_upgrade_purchased]
            simp
          dsimp only
          unfold UpgradeManager.purchase
          rw [if_pos hmem]

theorem customer_update_patience (c : Customer) (dt : Rat) (mods : Mods) :
    (c.update dt mods).patience =
      c.patience - dt * mget mods "patience_decay" 1 := by
  unfold Customer.update
  dsimp only
  split
  · split <;> rfl
  · rfl

theorem customer_update_max (c : Customer) (dt : Rat) (mods : Mods) :
    (c.update dt mods).max_patience = c.max_patience := by
  unfold Customer.update
  dsimp only
  split
  · split <;> rfl
  · rfl

theorem reveal_patience (c : Customer) (d : Rat) :
    (c.reveal d).patience = c.patience ∧
    (c.reveal d).max_patience = c.max_patience := by
  unfold Customer.reveal
  split <;> exact ⟨rfl, rfl⟩

theorem mkCustomer_fields (t : Template) (rid : String) :
    (ServiceController.mkCustomer t rid).patience = t.patience ∧
    (ServiceController.mkCustomer t rid).max_patience = t.patience := by
  unfold ServiceController.mkCustomer
  dsimp only
  split <;> exact ⟨rfl, rfl⟩

theorem addScan_mem (l : List (Option Customer)) (c : Customer)
    (o : Option Customer) (ho : o ∈ (CustomerQueue.addScan l c).2) :
    o ∈ l ∨ o = some c := by
  induction l with
  | nil =>
    simp [CustomerQueue.addScan] at ho
  | cons hd rest ih =>
    cases hd with
    | none =>
      rcases List.mem_cons.mp ho with h | h
      · right; exact h
      · left; exact List.mem_cons_of_mem _ h
    | some d =>
      rcases List.mem_cons.mp ho with h | h
      · left; rw [h]; exact List.mem_cons_self _ _
      · rcases ih h with h' | h'
        · left; exact List.mem_cons_of_mem _ h'
        · right; exact h'

theorem updateScan_mem (l : List (Option Customer)) (dt : Rat) (mods : Mods)
    (o : Option Customer) (ho : o ∈ (CustomerQueue.updateScan l dt mods).2) :
    o = none ∨ ∃ c₀, some c₀ ∈ l ∧ o = some (c₀.update dt mods) ∧
      ¬ (c₀.update dt mods).patience ≤ 0 := by
  induction l with
  | nil =>
    simp [CustomerQueue.updateScan] at ho
  | cons hd rest ih =>
    cases hd with
    | none =>
      rcases List.mem_cons.mp ho with h | h
      · left; exact h
      · rcases ih h with h' | ⟨c₀, hc₀, he, hp⟩
        · left; exact h'
        · right; exact ⟨c₀, List.mem_cons_of_mem _ hc₀, he, hp⟩
    | some c0 =>
      by_cases hpat : (c0.update dt mods).patience ≤ 0
      · have ho' : o ∈ (none : Option Customer) ::
            (CustomerQueue.updateScan rest dt mods).2 := by
          simpa [CustomerQueue.updateScan, hpat] using ho
        rcases List.mem_cons.mp ho' with h | h
        · left; exact h
        · rcases ih h with h' | ⟨c₀, hc₀, he, hp⟩
          · left; exact h'
          · right; exact ⟨c₀, List.mem_cons_of_mem _ hc₀, he, hp⟩
      · have ho' : o ∈ some (c0.update dt mods) ::
            (CustomerQueue.updateScan rest dt mods).2 := by
          simpa [CustomerQueue.updateScan, hpat] using ho
        rcases List.mem_cons.mp ho' with h | h
        · right; exact ⟨c0, List.mem_cons_self _ _, h, hpat⟩
        · rcases ih h with h' | ⟨c₀, hc₀, he, hp⟩
          · left; exact h'
          · right; exact ⟨c₀, List.mem_cons_of_mem _ hc₀, he, hp⟩

theorem queueInv_update (q : CustomerQueue) (dt : Rat) (mods : Mods)
    (hdt : 0 ≤ dt) (hpd : 0 ≤ mget mods "patience_decay" 1)
    (h : queueInv q) : queueInv (q.update dt mods).2 := by
  intro o ho c hoc
  have ho' : o ∈ (CustomerQueue.updateScan q.customers dt mods).2 := ho
  rcases updateScan_mem _ _ _ _ ho' with hnone | ⟨c₀, hc₀, hoeq, hpos⟩
  · rw [hnone] at hoc
    cases hoc
  · rw [hoeq] at hoc
    injection hoc with hc
    subst hc
    have hg := h _ hc₀ c₀ rfl
    have hmul : 0 ≤ dt * mget mods "patience_decay" 1 := mul_nonneg hdt hpd
    constructor
    · rw [customer_update_patience] at hpos ⊢
      linarith [lt_of_not_le hpos]
    · rw [customer_update_patience, customer_update_max]
      have := hg.2
      linarith

theorem queueInv_add (q : CustomerQueue) (c : Customer)
    (hgood : goodCustomer c) (h : queueInv q) :
    queueInv (q.add_customer c).2 := by
  intro o ho c' hoc
  have ho' : o ∈ (CustomerQueue.addScan q.customers c).2 := ho
  rcases addScan_mem _ _ _ ho' with hmem | heq
  · exact h _ hmem c' hoc
  · rw [heq] at hoc
    injection hoc with hc
    subst hc
    exact hgood

theorem queueInv_remove (q : CustomerQueue) (i : Nat) (h : queueInv q) :
    queueInv (q.remove_customer i).2 := by
  unfold CustomerQueue.remove_customer
  split
  · intro o ho c hoc
    have ho' : o ∈ q.customers.set i none := ho
    rcases List.mem_or_eq_of_mem_set ho' with hmem | heq
    · exact h _ hmem c hoc
    · rw [heq] at hoc
      cases hoc
  · exact h

theorem queueInv_ring (sc : ServiceController)
    (h : queueInv sc.customer_queue) :
    queueInv sc.ring_bell.customer_queue := by
  intro o ho c hoc
  have ho' := List.mem_map.mp ho
  obtain ⟨o₀, ho₀, heq⟩ := ho'
  cases o₀ with
  | none =>
    rw [← heq] at hoc
    cases hoc
  | some c₀ =>
    have hg := h _ ho₀ c₀ rfl
    by_cases hq : c₀.quirk = some "invisible"
    · rw [← heq] at hoc
      simp only [hq, if_pos] at hoc
      injection hoc with hc
      subst hc
      obtain ⟨hp, hm⟩ := reveal_patience c₀ 2
      exact ⟨hp ▸ hg.1, by rw [hp, hm]; exact hg.2⟩
    · rw [← heq] at hoc
      simp only [hq, if_neg, if_false] at hoc
      injection hoc with hc
      subst hc
      exact hg

theorem timePhase_frame (sc : ServiceController) (dt : Rat) :
    (ServiceController.timePhase sc dt).customer_pool = sc.customer_pool ∧
    (ServiceController.timePhase sc dt).customer_queue =
      sc.customer_queue := by
  unfold ServiceController.timePhase
  dsimp only
  split <;> exact ⟨rfl, rfl⟩

theorem heatPhase_frame (sc : ServiceController) (dt : Rat) :
    (ServiceController.heatPhase sc dt).customer_pool = sc.customer_pool ∧
    (ServiceController.heatPhase sc dt).customer_queue =
      sc.customer_queue := by
  unfold ServiceController.heatPhase
  dsimp only
  split <;> exact ⟨rfl, rfl⟩

theorem spawn_inv (sc : ServiceController) (tIdx rIdx : Nat) (b : Bool)
    (sc' : ServiceController)
    (h : sc.spawn_customer tIdx rIdx = some (b, sc'))
    (hinv : scInv sc) : scInv sc' := by
  unfold ServiceController.spawn_customer at h
  split at h
  · simp only [Option.some.injEq, Prod.mk.injEq] at h
    obtain ⟨-, rfl⟩ := h
    exact hinv
  · split at h
    · simp only [Option.some.injEq, Prod.mk.injEq] at h
      obtain ⟨-, rfl⟩ := h
      exact hinv
    · rename_i t hget
      split at h
      · cases h
      · rename_i r hrand
        simp only [Option.some.injEq, Prod.mk.injEq] at h
        obtain ⟨-, rfl⟩ := h
        refine ⟨hinv.1, ?_⟩
        apply queueInv_add
        · obtain ⟨hp, hm⟩ := mkCustomer_fields t r.id
          have ht : t ∈ sc.customer_pool := List.get?_mem hget
          exact ⟨hp ▸ hinv.1 t ht, by rw [hp, hm]⟩
        · exact hinv.2

theorem spawnPhase_inv (sc : ServiceController) (tIdx rIdx : Nat)
    (jitter : Rat) (sc' : ServiceController)
    (h : ServiceController.spawnPhase sc tIdx rIdx jitter = some sc')
    (hinv : scInv sc) : scInv sc' := by
  unfold ServiceController.spawnPhase at h
  split at h
  · rcases Option.map_eq_some'.mp h with ⟨p, hp, hf⟩
    have hpi : scInv p.2 := spawn_inv sc tIdx rIdx p.1 p.2 (by rw [hp]) hinv
    rw [← hf]
    split <;> exact hpi
  · simp only [Option.some.injEq] at h
    rw [← h]
    exact hinv

theorem update_inv (sc : ServiceController) (dt : Rat) (mods : Mods)
    (tIdx rIdx : Nat) (jitter : Rat) (ev : ServiceEvents)
    (sc' : ServiceController) (hdt : 0 ≤ dt)
    (hpd : 0 ≤ mget mods "patience_decay" 1)
    (h : sc.update dt mods tIdx rIdx jitter = some (ev, sc'))
    (hinv : scInv sc) : scInv sc' := by
  unfold ServiceController.update at h
  split at h
  · simp only [Option.some.injEq, Prod.mk.injEq] at h
    obtain ⟨-, rfl⟩ := h
    exact hinv
  · dsimp only at h
    split at h
    · cases h
    · rename_i sc3 hsp
      simp only [Option.some.injEq, Prod.mk.injEq] at h
      obtain ⟨-, rfl⟩ := h
      -- the invariant survives the time and timer bookkeeping
      have hinv2 : scInv { ServiceController.timePhase sc dt with
          spawn_timer := (ServiceController.timePhase sc dt).spawn_timer
            - dt } := by
        obtain ⟨hpool, hqueue⟩ := timePhase_frame sc dt
        exact ⟨by rw [hpool]; exact hinv.1, by rw [hqueue]; exact hinv.2⟩
      have hinv3 : scInv sc3 := spawnPhase_inv _ tIdx rIdx jitter sc3 hsp hinv2
      -- aging, brewing and heat
      have hinv4 : scInv { sc3 with
          customer_queue := (sc3.customer_queue.update dt mods).2 } :=
        ⟨hinv3.1, queueInv_update _ dt mods hdt hpd hinv3.2⟩
      obtain ⟨hpool6, hqueue6⟩ := heatPhase_frame { sc3 with
        customer_queue := (sc3.customer_queue.update dt mods).2,
        brewing_station := ({ sc3 with customer_queue :=
          (sc3.customer_queue.update dt mods).2
          }.brewing_station.update dt mods).2 } dt
      exact ⟨by rw [hpool6]; exact hinv4.1, by rw [hqueue6]; exact hinv4.2⟩

theorem serve_inv (sc : ServiceController) (steps : List String)
    (r : ServeResult) (sc' : ServiceController)
    (h : sc.serve_drink steps = some (r, sc')) (hinv : scInv sc) :
    scInv sc' := by
  unfold ServiceController.serve_drink at h
  split at h
  · simp only [Option.some.injEq, Prod.mk.injEq] at h
    obtain ⟨-, rfl⟩ := h
    exact hinv
  · split at h
    · cases h
    · simp only [Option.some.injEq, Prod.mk.injEq] at h
      obtain ⟨-, rfl⟩ := h
      exact hinv
    · dsimp only at h
      simp only [Option.some.injEq, Prod.mk.injEq] at h
      obtain ⟨-, rfl⟩ := h
      exact ⟨hinv.1, queueInv_remove _ _ hinv.2⟩

theorem start_day_inv (sc : ServiceController) (d tIdx rIdx : Nat)
    (sc' : ServiceController) (h : sc.start_day d tIdx rIdx = some sc')
    (hinv : scInv sc) : scInv sc' := by
  unfold ServiceController.start_day at h
  dsimp only at h
  rcases Option.map_eq_some'.mp h with ⟨p, hp, hf⟩
  rw [← hf]
  apply spawn_inv _ tIdx rIdx p.1 p.2 (by rw [hp])
  constructor
  · exact hinv.1
  · intro o ho c hoc
    have hn : o = none := List.eq_of_mem_replicate ho
    rw [hn] at hoc
    cases hoc

theorem sstep_inv (sc : ServiceController) (op : SOp)
    (sc' : ServiceController) (hop : goodOp op) (h : sstep sc op = some sc')
    (hinv : scInv sc) : scInv sc' := by
  cases op with
  | startDay d tIdx rIdx => exact start_day_inv sc d tIdx rIdx sc' h hinv
  | updateT dt mods tIdx rIdx j =>
    obtain ⟨hdt, hpd⟩ := hop
    rcases Option.map_eq_some'.mp h with ⟨p, hp, hf⟩
    rw [← hf]
    exact update_inv sc dt mods tIdx rIdx j p.1 p.2 hdt hpd (by rw [hp]) hinv
  | spawn tIdx rIdx =>
    rcases Option.map_eq_some'.mp h with ⟨p, hp, hf⟩
    rw [← hf]
    exact spawn_inv sc tIdx rIdx p.1 p.2 (by rw [hp]) hinv
  | serve steps =>
    rcases Option.map_eq_some'.mp h with ⟨p, hp, hf⟩
    rw [← hf]
    exact serve_inv sc steps p.1 p.2 (by rw [hp]) hinv
  | startOrder i =>
    simp only [sstep, Option.some.injEq] at h
    rw [← h]
    exact ⟨hinv.1, hinv.2⟩
  | ringBell =>
    simp only [sstep, Option.some.injEq] at h
    rw [← h]
    exact ⟨hinv.1, queueInv_ring sc hinv.2⟩

theorem srun_inv (ops : List SOp) (sc sc' : ServiceController)
    (hops : ∀ op ∈ ops, goodOp op) (h : srun sc ops = some sc')
    (hinv : scInv sc) : scInv sc' := by
  induction ops generalizing sc with
  | nil =>
    simp only [srun, Option.some.injEq] at h
    rw [← h]
    exact hinv
  | cons op rest ih =>
    unfold srun at h
    split at h
    · cases h
    · rename_i scmid hstep
      exact ih scmid (fun o ho => hops o (List.mem_cons_of_mem _ ho)) h
        (sstep_inv sc op scmid (hops op (List.mem_cons_self _ _)) hstep hinv)

theorem c2_mk_eval :
    ServiceController.mkCustomer beaTemplate latteRecipe.id = beaCustomer := by
  norm_num [ServiceController.mkCustomer, beaTemplate, beaCustomer,
    latteRecipe]
  simp

theorem c2_start_day_eval : c2sc0.start_day 1 0 0 = some c2sc1 := by
  have hrand : latteBook.get_random_recipe 0 = some latteRecipe := by decide
  norm_num [c2sc0, ServiceController.init, ServiceController.start_day,
    ServiceController.spawn_customer, CustomerQueue.init,
    CustomerQueue.add_customer, CustomerQueue.addScan, hrand, c2_mk_eval,
    c2sc1, List.replicate]

/-- C2 counterexample: starting a day over a 10 s-patience pool and then
calling `update` with `dt = 20` puts two customers with `patience = -10`
into the `customers_left` list of the update events, refuting the claim
that customers returned in `customers_left` satisfy `0 ≤ patience`. -/
theorem claim2_counterexample :
    c2sc0.start_day 1 0 0 = some c2sc1 ∧
    ((c2sc1.update 20 [] 0 0 0).map fun p =>
      p.1.customers_left.map (·.patience)) = some [-10, -10] ∧
    ¬ (0 ≤ (-10 : Rat)) := by
  refine ⟨c2_start_day_eval, ?_, by norm_num⟩
  have hrand : latteBook.get_random_recipe 0 = some latteRecipe := by decide
  have hpat : (beaCustomer.update 20 []).patience = -10 := by
    rw [customer_update_patience]
    norm_num [beaCustomer, mget, List.find?]
  norm_num [c2sc1, ServiceController.update, ServiceController.timePhase,
    ServiceController.spawnPhase, ServiceController.heatPhase,
    ServiceController.spawn_customer, CustomerQueue.update,
    CustomerQueue.updateScan, CustomerQueue.get_active_customers,
    CustomerQueue.add_customer, CustomerQueue.addScan, mget, List.find?,
    List.filterMap_cons, List.filterMap_nil, id,
    BrewingStation.update, BrewingStation.init, hrand, c2_mk_eval, hpat]

/-- C2 amended: along every exception-free trace of `start_day`, `update`
(with `dt ≥ 0` and a nonnegative patience-decay modifier),
`spawn_customer`, `serve_drink`, `start_order` and `ring_bell` calls from
a fresh controller whose template pool has nonnegative patiences, every
customer OCCUPYING a queue slot satisfies `0 ≤ patience ≤ max_patience`;
customers returned in `customers_left` can have negative patience (see
the counterexample), so the claim holds only for queue occupants. -/
theorem claim2_amended (book : RecipeBook) (pool : List Template)
    (hpool : ∀ t ∈ pool, 0 ≤ t.patience) (ops : List SOp)
    (hops : ∀ op ∈ ops, goodOp op) (sc' : ServiceController)
    (h : srun (ServiceController.init book pool) ops = some sc') :
    ∀ o ∈ sc'.customer_queue.customers, ∀ c, o = some c →
      0 ≤ c.patience ∧ c.patience ≤ c.max_patience := by
  have hinv : scInv (ServiceController.init book pool) := by
    refine ⟨hpool, ?_⟩
    intro o ho c hoc
    have hn : o = none := List.eq_of_mem_replicate ho
    rw [hn] at hoc
    cases hoc
  exact (srun_inv ops _ sc' hops h hinv).2

/-- Witness for C2: after `start_day` the spawned customer satisfies the
patience bounds. -/
theorem claim2_witness :
    0 ≤ beaCustomer.patience ∧
      beaCustomer.patience ≤ beaCustomer.max_patience := by
  have hrun : srun (ServiceController.init latteBook [beaTemplate])
      [SOp.startDay 1 0 0] = some c2sc1 := by
    show srun c2sc0 [SOp.startDay 1 0 0] = some c2sc1
    simp [srun, sstep, c2_start_day_eval]
  refine claim2_amended latteBook [beaTemplate] ?_ [SOp.startDay 1 0 0]
    ?_ c2sc1 hrun (some beaCustomer) ?_ beaCustomer rfl
  · intro t ht
    simp only [List.mem_singleton] at ht
    rw [ht]
    norm_num [beaTemplate]
  · intro op hop
    simp only [List.mem_singleton] at hop
    rw [hop]
    trivial
  · simp [c2sc1]

/-- C6 counterexample: a non-empty recipe book consisting of a single
banishing-tagged recipe makes `get_random_recipe` fail (the modelled
`random.choice` `IndexError`) for every random draw, refuting "fails
fatally only when the recipe set is empty" and "for every non-empty
recipe set it returns some ordinary recipe". -/
theorem claim6_counterexample :
    c6_book.recipes ≠ [] ∧
    ∀ k : Nat, c6_book.get_random_recipe k = none := by
  constructor
  · simp [c6_book]
  · intro k
    have hreg : c6_book.regular_recipes = [] := by decide
    unfold RecipeBook.get_random_recipe
    rw [hreg]
    rfl

/-- C6 amended: `get_random_recipe` never returns a recipe whose id is
banishing-tagged, and it fails exactly when the list of ordinary
(non-banishing) recipes is empty — which can also happen for a non-empty
recipe set; whenever it returns a recipe, that recipe is an ordinary
member of the book. -/
theorem claim6_amended (b : RecipeBook) (k : Nat) :
    (b.get_random_recipe k = none ↔ b.regular_recipes = []) ∧
    (∀ r, b.get_random_recipe k = some r →
      pyStartswith r.id "banishing" = false ∧ r ∈ b.recipes) := by
  constructor
  · unfold RecipeBook.get_random_recipe
    cases hreg : b.regular_recipes with
    | nil => simp
    | cons r0 rest =>
      constructor
      · intro hn
        have hlt : k % (r0 :: rest).length < (r0 :: rest).length :=
          Nat.mod_lt _ (by simp)
        rw [List.get?_eq_none] at hn
        omega
      · intro hcontra
        exact absurd hcontra (by simp)
  · intro r hr
    unfold RecipeBook.get_random_recipe at hr
    have hmem : r ∈ b.regular_recipes := List.get?_mem hr
    unfold RecipeBook.regular_recipes at hmem
    rw [List.mem_filter] at hmem
    refine ⟨?_, hmem.1⟩
    have h2 := hmem.2
    simp only [Bool.not_eq_true'] at h2
    exact h2

/-- Witness for C6: the latte-only book yields the latte, an ordinary
recipe present in the book. -/
theorem claim6_witness :
    pyStartswith latteRecipe.id "banishing" = false ∧
    latteRecipe ∈ latteBook.recipes :=
  (claim6_amended latteBook 0).2 latteRecipe (by decide)

/-- Witness for C5: buying the grinder for 20 coins leaves 5, and buying
it again fails. -/
theorem claim5_witness :
    (UpgradeManager.init.purchase "enchanted_grinder" 20).1 = some 5 ∧
    ((UpgradeManager.init.purchase "enchanted_grinder" 20).2.purchase
        "enchanted_grinder" 100).1 = none := by
  have h := claim5_purchase UpgradeManager.init "enchanted_grinder" 20
  have hfind : UpgradeManager.init.findUpgrade "enchanted_grinder" =
      some { id := "enchanted_grinder", name := "Enchanted Grinder",
             description := "Reduces brew time by 20%", cost := 15,
             effect_key := "brew_speed", effect_value := 6/5,
             icon := some "upgrade_grinder" } := rfl
  have h31 := h.2.2.1 _ hfind (by simp [UpgradeManager.init]) (by norm_num)
  constructor
  · rw [h31]
    norm_num
  · have h4 := h.2.2.2 (20 - 15) (by rw [h31]) 100
    rw [h4]

theorem pyInt_nonneg (q : Rat) (h : 0 ≤ q) : 0 ≤ pyInt q := by
  unfold pyInt
  rw [if_pos h]
  exact Int.floor_nonneg.mpr h

/-- C1 amended: with the station bound to an occupied slot, the desired
recipe in the book, `0 ≤ patience ≤ max_patience`, and additionally
`0 < max_patience` (the code divides by it) and `tip_range = [t0, t1]`
with `t0 ≤ t1` (forced by the counterexample): serving the exact recipe
sequence succeeds with `tip ≥ t0`, serving any other sequence fails with
`tip = 0`, and in both cases the slot is emptied. -/
theorem claim1_serve (sc : ServiceController) (i : Nat) (c : Customer)
    (rid : String) (recipe : Recipe) (t0 t1 : Int) (seq : List String)
    (hsel : sc.brewing_station.selected_customer_index = some i)
    (hget : sc.customer_queue.customers.get? i = some (some c))
    (hms : i < sc.customer_queue.max_size)
    (hdes : c.desired_recipe = some rid)
    (hfind : sc.recipe_book.find rid = some recipe)
    (htr : c.tip_range = [t0, t1]) (ht01 : t0 ≤ t1)
    (hp0 : 0 ≤ c.patience) (hpm : c.patience ≤ c.max_patience)
    (hmp : 0 < c.max_patience) :
    ((sc.serve_drink seq).isSome = true) ∧
    (∀ res sc', sc.serve_drink seq = some (res, sc') →
      ((seq = recipe.steps → res.success = true ∧ t0 ≤ res.tip) ∧
       (seq ≠ recipe.steps → res.success = false ∧ res.tip = 0) ∧
       sc'.customer_queue.customers.get? i = some none)) := by
  unfold ServiceController.serve_drink
  rw [hsel]
  dsimp only
  rw [hget]
  dsimp only
  rw [hdes]
  dsimp only
  rw [hfind]
  dsimp only
  refine ⟨rfl, ?_⟩
  intro res sc' h
  simp only [Option.some.injEq, Prod.mk.injEq] at h
  obtain ⟨hres, hsc'⟩ := h
  have hlt : i < sc.customer_queue.customers.length :=
    (List.get?_eq_some.mp hget).1
  refine ⟨?_, ?_, ?_⟩
  · intro hseq
    subst hseq
    rw [← hres]
    have hmatch : recipe.«matches» recipe.steps = true := by
      simp [Recipe.«matches»]
    constructor
    · dsimp only
      exact hmatch
    · dsimp only
      rw [hmatch]
      unfold Customer.calculate_tip
      simp only [Bool.not_true, Bool.false_eq_true, if_false]
      rw [htr]
      simp only [List.getD_cons_zero, List.getD_cons_succ]
      have hb : 0 ≤ pyInt ((((t1 - t0 : Int)) : Rat) *
          (c.patience / c.max_patience)) := by
        apply pyInt_nonneg
        apply mul_nonneg
        · exact_mod_cast sub_nonneg.mpr ht01
        · exact div_nonneg hp0 (le_of_lt hmp)
      linarith
  · intro hseq
    rw [← hres]
    have hmatch : recipe.«matches» seq = false := by
      simp only [Recipe.«matches»]
      exact beq_eq_false_iff_ne.mpr hseq
    constructor
    · simp [hmatch]
    · simp [hmatch, Customer.calculate_tip]
  · rw [← hsc']
    show ((CustomerQueue.remove_customer _ i).2).customers.get? i = some none
    unfold CustomerQueue.remove_customer
    rw [if_pos hms]
    exact List.get?_set_eq_of_lt none hlt

/-- C1 counterexample: `mozCustomer` satisfies every hypothesis the claim
states (occupied bound slot, recipe in book, `0 ≤ patience ≤
max_patience`), and serving the exact correct sequence returns
`success = true` with `tip = 0 < 5 = tip_range[0]`, refuting
`tip ≥ tip_range[0]` — the claim omits `tip_range[0] ≤ tip_range[1]`. -/
theorem claim1_counterexample :
    ((c1sc.serve_drink ["beans", "milk"]).map fun p =>
      (p.1.success, p.1.tip)) = some (true, 0) ∧
    mozCustomer.tip_range.getD 0 0 = 5 ∧ ¬ ((0 : Int) ≥ 5) := by
  have hfind : latteBook.find "latte" = some latteRecipe := by decide
  refine ⟨?_, by norm_num [mozCustomer], by norm_num⟩
  norm_num [c1sc, ServiceController.serve_drink, BrewingStation.init,
    BrewingStation.start_order, hfind, mozCustomer, Recipe.«matches»,
    latteRecipe, Customer.calculate_tip, pyInt, CustomerQueue.remove_customer]

theorem c10_serve_eval :
    c10sc.serve_drink ["beans", "milk"] =
      some ({ success := true, tip := 3,
              message := "Lia loved their Latte!" }, c10after) := by
  have hfind : latteBook.find "latte" = some latteRecipe := by decide
  norm_num [c10sc, c10after, ServiceController.serve_drink,
    BrewingStation.init, BrewingStation.start_order, hfind, liaCustomer,
    Recipe.«matches», latteRecipe, Customer.calculate_tip, pyInt,
    CustomerQueue.remove_customer]
  rfl

/-- Witness for C1 at `liaCustomer` with the correct sequence. -/
theorem claim1_witness :
    ((c10sc.serve_drink ["beans", "milk"]).isSome = true) ∧
    ((1 : Int) ≤ 3) ∧
    c10after.customer_queue.customers.get? 0 = some none := by
  have h := claim1_serve c10sc 0 liaCustomer "latte" latteRecipe 1 3
    ["beans", "milk"] rfl rfl (by norm_num [c10sc]) rfl (by decide) rfl
    (by norm_num) (by norm_num [liaCustomer]) (by norm_num [liaCustomer])
    (by norm_num [liaCustomer])
  have h2 := h.2 _ _ c10_serve_eval
  exact ⟨h.1, (h2.1 (by norm_num [latteRecipe])).2, h2.2.2⟩

/-- C10: `serve_drink` never touches the brewing station (the station of
the result state equals the station of the input state, for every call
and every outcome); consequently after a serve that found a customer at
the bound slot, the station is still bound to the now-empty slot and an
immediately repeated `serve_drink` returns the failure result and leaves
the whole controller — in particular `customers_served` and
`total_tips` — unchanged. -/
theorem claim10_serve_frame (sc : ServiceController) (seq seq' : List String) :
    (∀ r sc', sc.serve_drink seq = some (r, sc') →
      sc'.brewing_station = sc.brewing_station) ∧
    (∀ i c r sc', sc.brewing_station.selected_customer_index = some i →
      sc.customer_queue.customers.get? i = some (some c) →
      i < sc.customer_queue.max_size →
      sc.serve_drink seq = some (r, sc') →
      sc'.serve_drink seq' =
        some ({ success := false, tip := 0, message := "" }, sc')) := by
  constructor
  · intro r sc' h
    unfold ServiceController.serve_drink at h
    split at h
    · simp only [Option.some.injEq, Prod.mk.injEq] at h
      obtain ⟨-, rfl⟩ := h
      rfl
    · split at h
      · cases h
      · simp only [Option.some.injEq, Prod.mk.injEq] at h
        obtain ⟨-, rfl⟩ := h
        rfl
      · dsimp only at h
        simp only [Option.some.injEq, Prod.mk.injEq] at h
        obtain ⟨-, rfl⟩ := h
        rfl
  · intro i c r sc' hsel hget hms h
    unfold ServiceController.serve_drink at h
    rw [hsel] at h
    dsimp only at h
    rw [hget] at h
    dsimp only at h
    simp only [Option.some.injEq, Prod.mk.injEq] at h
    obtain ⟨-, rfl⟩ := h
    have hlt : i < sc.customer_queue.customers.length :=
      (List.get?_eq_some.mp hget).1
    unfold ServiceController.serve_drink
    rw [show (BrewingStation.selected_customer_index _) = some i from hsel]
    dsimp only
    have hslot : ((CustomerQueue.remove_customer
        { sc.customer_queue with } i).2).customers.get? i = some none := by
      unfold CustomerQueue.remove_customer
      rw [if_pos hms]
      exact List.get?_set_eq_of_lt none hlt
    rw [hslot]

/-- Witness for C10: the station survives the serve and the repeated
serve fails without changing the state. -/
theorem claim10_witness :
    c10after.serve_drink ["beans"] =
      some ({ success := false, tip := 0, message := "" }, c10after) :=
  (claim10_serve_frame c10sc ["beans", "milk"] ["beans"]).2 0 liaCustomer
    _ _ rfl rfl (by norm_num [c10sc]) c10_serve_eval

end GameBuilder
